import Mathlib

/-!
Shallow embedding of `static/videos/arf_render_video/process_videos.py`.

The script has two parts:
* `process_video(video_path_str, output_dir_str)`: opens one video with
  `cv2.VideoCapture`, reads properties (frame count, fps, width, height),
  opens a `cv2.VideoWriter`, loops `cap.read()` / `cvtColor(BGR2RGB)` /
  `out.write`, releases both handles, with a `try/except` around the whole
  body and a local `except cv2.error` around the colour conversion.
* a `__main__` block: discovers files by extension, exits early if none,
  creates the output directory, starts a `multiprocessing.Pool`, drives a
  tqdm progress bar by one `update(1)` per `imap_unordered` completion.

External effects (cv2, the filesystem) are modelled by an `Env` record that
fixes the outcome of every external call of one `process_video` run; the
function itself becomes a total Lean function from the environment to a
final state record `St` that registers the observable effects (handles
open/closed, warnings printed, frames decoded/written, the path handed to
the writer, the fps handed to the writer, an ordered trace of the external
steps).
-/

namespace ProcessVideos

/-- Outcome of one iteration of the frame loop, as fixed by the environment:
`ok` = `cap.read` succeeds, `cvtColor` succeeds, `out.write` succeeds;
`convFail` = `cvtColor` raises `cv2.error` (caught locally, frame skipped);
`convRaise` = `cvtColor` raises some non-`cv2.error` exception;
`writeRaise` = `out.write` raises; `readRaise` = `cap.read` raises.
The end of the stream (`ret == False`) is the end of the event list. -/
inductive FrameEvent where
  | ok : FrameEvent
  | convFail : FrameEvent
  | convRaise : FrameEvent
  | writeRaise : FrameEvent
  | readRaise : FrameEvent
deriving DecidableEq, Repr

/-- Diagnostic lines printed by `process_video`. -/
inductive Warn where
  | unopenableSource : Warn
  | invalidFps : Warn
  | unopenableDest : Warn
  | convFailAt : Nat → Warn
  | unexpected : Warn
deriving DecidableEq, Repr

/-- External side-effecting steps whose order matters for the claims. -/
inductive Step where
  | mkdirStep : Step
  | openCap : Step
  | openWriter : Step
deriving DecidableEq, Repr

/-- Exceptions that can reach the outer `try/except` of `process_video`. -/
inductive PyExc where
  | mkdirErr : PyExc
  | convErr : PyExc
  | writeErr : PyExc
  | readErr : PyExc
deriving DecidableEq, Repr

/-- Environment of one `process_video` run: the outcome of every external
call. `frameCount`, `fps`, `width`, `height` are the values reported by
`cap.get`; `events` fixes the frame loop. -/
structure Env where
  mkdirRaises : Bool
  capOpens : Bool
  frameCount : Int
  fps : ℚ
  width : Int
  height : Int
  outOpens : Bool
  events : List FrameEvent
deriving DecidableEq, Repr

/-- Observable state of one `process_video` run. `capOpen` / `outOpen` are
true while the corresponding handle is acquired and not yet released;
`framesWritten` mirrors the script's `processed_frames` counter,
`framesDecoded` counts successful `cap.read` calls. -/
structure St where
  outputPath : Option String
  trace : List Step
  warnings : List Warn
  dirCreated : Bool
  capConstructed : Bool
  capOpen : Bool
  outConstructed : Bool
  outOpen : Bool
  usedFps : Option ℚ
  outSize : Option (Int × Int)
  framesDecoded : Nat
  framesWritten : Nat
  convFailures : Nat
deriving DecidableEq, Repr

/-- Final path component, as `pathlib.PurePath.name`: the part after the
last `/` (paths coming from `iterdir` have no trailing slash). -/
def pyName (p : String) : String :=
  String.mk (p.toList.foldl (fun acc c => if c = '/' then [] else acc ++ [c]) [])

/-- ASCII lower-casing, as `str.lower()` applied to the ASCII extensions
the script compares against. -/
def pyLower (s : String) : String :=
  String.mk (s.toList.map Char.toLower)

/-- Position of the last `.` in the name, as Python's `str.rfind`:
`none` when there is no dot. -/
def lastDot (l : List Char) : Option Nat :=
  let j := l.reverse.findIdx (fun c => c == '.')
  if j = l.length then none else some (l.length - 1 - j)

/-- `pathlib.PurePath.stem`: the name without its last suffix; the whole
name when the last dot is at position 0, absent, or final. -/
def pyStem (p : String) : String :=
  let name := pyName p
  let l := name.toList
  match lastDot l with
  | none => name
  | some i => if 0 < i ∧ i < l.length - 1 then String.mk (l.take i) else name

/-- `pathlib.PurePath.suffix`: the last dot-led suffix of the name, or `""`
when the last dot is at position 0, absent, or final. -/
def pyExt (p : String) : String :=
  let name := pyName p
  let l := name.toList
  match lastDot l with
  | some i => if 0 < i ∧ i < l.length - 1 then String.mk (l.drop i) else ""
  | none => ""

/-- The allow-list `video_extensions` of the script. -/
def video_extensions : List String :=
  [".mp4", ".avi", ".mov", ".mkv", ".wmv", ".flv"]

/-- Initial state of a run: lines 17-21 of the script compute the output
path (`output_dir / (stem + ".mp4")`) before anything else happens. -/
def initSt (video_path_str output_dir_str : String) : St :=
  { outputPath := some (output_dir_str ++ "/" ++ pyStem video_path_str ++ ".mp4")
    trace := []
    warnings := []
    dirCreated := false
    capConstructed := false
    capOpen := false
    outConstructed := false
    outOpen := false
    usedFps := none
    outSize := none
    framesDecoded := 0
    framesWritten := 0
    convFailures := 0 }

/-- The `while True` frame loop (lines 53-73). On a normal `ret == False`
exit the script compares `processed_frames < frame_count` in a branch whose
body is `pass`. `cv2.error` from `cvtColor` is caught locally (warning,
`continue`); every other exception propagates as `.error` carrying the
state at the raise point. -/
def runLoop (frame_count : Int) : List FrameEvent → St → Except (PyExc × St) St
  | [], s =>
      Except.ok (if (s.framesWritten : Int) < frame_count then s else s)
  | FrameEvent.readRaise :: _, s => Except.error (PyExc.readErr, s)
  | FrameEvent.ok :: rest, s =>
      runLoop frame_count rest
        { s with framesDecoded := s.framesDecoded + 1
                 framesWritten := s.framesWritten + 1 }
  | FrameEvent.convFail :: rest, s =>
      runLoop frame_count rest
        { s with framesDecoded := s.framesDecoded + 1
                 convFailures := s.convFailures + 1
                 warnings := s.warnings ++ [Warn.convFailAt (s.framesWritten + 1)] }
  | FrameEvent.convRaise :: _, s =>
      Except.error (PyExc.convErr, { s with framesDecoded := s.framesDecoded + 1 })
  | FrameEvent.writeRaise :: _, s =>
      Except.error (PyExc.writeErr, { s with framesDecoded := s.framesDecoded + 1 })

/-- The `except Exception` handler (lines 80-86): print the unexpected
error, then `cap.release()` if `cap` is in scope and open, then
`out.release()` if `out` is in scope and open. -/
def exceptHandler (s : St) : St :=
  let s1 := { s with warnings := s.warnings ++ [Warn.unexpected] }
  let s2 := if s1.capConstructed && s1.capOpen then { s1 with capOpen := false } else s1
  if s2.outConstructed && s2.outOpen then { s2 with outOpen := false } else s2

/-- After the writer is open: run the frame loop, then on normal exit
release both handles (lines 76-77); an exception goes to the handler. -/
def afterWriter (frame_count : Int) (events : List FrameEvent) (s : St) : St :=
  match runLoop frame_count events s with
  | Except.ok s => { s with capOpen := false, outOpen := false }
  | Except.error (_, s) => exceptHandler s

/-- The whole of `process_video`, lines 16-86 of the script, as a function
from the environment to the final observable state. -/
def process_video (video_path_str output_dir_str : String) (env : Env) : St :=
  let s0 := initSt video_path_str output_dir_str
  if env.mkdirRaises then exceptHandler s0
  else
    let s1 := { s0 with dirCreated := true, trace := s0.trace ++ [Step.mkdirStep] }
    let s2 := { s1 with capConstructed := true
                        capOpen := env.capOpens
                        trace := s1.trace ++ [Step.openCap] }
    if !env.capOpens then
      { s2 with warnings := s2.warnings ++ [Warn.unopenableSource] }
    else
      let fps : ℚ := if env.fps ≤ 0 then 30 else env.fps
      let s3 := if env.fps ≤ 0 then { s2 with warnings := s2.warnings ++ [Warn.invalidFps] }
                else s2
      let s4 := { s3 with outConstructed := true
                          outOpen := env.outOpens
                          usedFps := some fps
                          outSize := some (env.width, env.height)
                          trace := s3.trace ++ [Step.openWriter] }
      if !env.outOpens then
        { s4 with warnings := s4.warnings ++ [Warn.unopenableDest], capOpen := false }
      else
        afterWriter env.frameCount env.events s4

/-- One directory entry seen by `source_path.iterdir()`. -/
structure Entry where
  path : String
  isFile : Bool
deriving DecidableEq, Repr

/-- The discovery filter (lines 109-112): regular files whose lower-cased
suffix is in the allow-list. -/
def isVideoEntry (e : Entry) : Bool :=
  e.isFile && video_extensions.contains (pyLower (pyExt e.path))

/-- The `video_files` list of the script. -/
def discoverVideoFiles (entries : List Entry) : List Entry :=
  entries.filter isVideoEntry

/-- Observable outcome of the `__main__` block. -/
structure BatchResult where
  noFilesMessage : Bool
  poolStarted : Bool
  outputDirCreated : Bool
  finalCounter : Option Nat
  results : List St
deriving DecidableEq, Repr

/-- The `__main__` block (lines 89-143): discover, exit early when nothing
matched (before `output_path.mkdir` and before the pool), otherwise create
the output directory, start the pool, and bump the tqdm bar once per
`imap_unordered` completion. `completionOrder` is the arbitrary order in
which the pool yields completions; `envOf` gives each file's environment. -/
def runBatch (entries : List Entry) (output_dir : String) (envOf : String → Env)
    (completionOrder : List Entry) : BatchResult :=
  let video_files := discoverVideoFiles entries
  if video_files.isEmpty then
    { noFilesMessage := true
      poolStarted := false
      outputDirCreated := false
      finalCounter := none
      results := [] }
  else
    let results := completionOrder.map (fun f => process_video f.path output_dir (envOf f.path))
    let pbar := results.foldl (fun n _ => n + 1) 0
    { noFilesMessage := false
      poolStarted := true
      outputDirCreated := true
      finalCounter := some pbar
      results := results }

end ProcessVideos

namespace ProcessVideos

/-- Project the state out of a loop outcome, whether it returned or raised. -/
def stateOf : Except (PyExc × St) St → St
  | Except.ok s => s
  | Except.error (_, s) => s

theorem foldl_add_one {α : Type} (l : List α) (n : Nat) :
    List.foldl (fun n _ => n + 1) n l = n + l.length := by
  induction l generalizing n with
  | nil => simp
  | cons a t ih => simp [List.foldl, ih]; omega

theorem runLoop_untouched (fc : Int) (es : List FrameEvent) (s : St) :
    (stateOf (runLoop fc es s)).capConstructed = s.capConstructed ∧
    (stateOf (runLoop fc es s)).capOpen = s.capOpen ∧
    (stateOf (runLoop fc es s)).outConstructed = s.outConstructed ∧
    (stateOf (runLoop fc es s)).outOpen = s.outOpen ∧
    (stateOf (runLoop fc es s)).usedFps = s.usedFps ∧
    (stateOf (runLoop fc es s)).outputPath = s.outputPath ∧
    (stateOf (runLoop fc es s)).trace = s.trace ∧
    (stateOf (runLoop fc es s)).dirCreated = s.dirCreated := by
  induction es generalizing s with
  | nil => simp [runLoop, stateOf, ite_self]
  | cons e rest ih =>
    cases e with
    | ok =>
      simp only [runLoop]
      simpa using ih _
    | convFail =>
      simp only [runLoop]
      simpa using ih _
    | convRaise => simp [runLoop, stateOf]
    | writeRaise => simp [runLoop, stateOf]
    | readRaise => simp [runLoop, stateOf]

theorem runLoop_fc_irrel (fc1 fc2 : Int) (es : List FrameEvent) (s : St) :
    runLoop fc1 es s = runLoop fc2 es s := by
  induction es generalizing s with
  | nil => simp [runLoop, ite_self]
  | cons e rest ih => cases e <;> simp only [runLoop] <;> exact ih _

theorem afterWriter_fc_irrel (fc1 fc2 : Int) (es : List FrameEvent) (s : St) :
    afterWriter fc1 es s = afterWriter fc2 es s := by
  unfold afterWriter
  rw [runLoop_fc_irrel fc1 fc2]

theorem runLoop_clean (fc : Int) (es : List FrameEvent) : ∀ (s : St),
    (∀ e ∈ es, e = FrameEvent.ok ∨ e = FrameEvent.convFail) →
    ∃ s', runLoop fc es s = Except.ok s' ∧
      s'.framesDecoded = s.framesDecoded + es.length ∧
      s'.framesWritten = s.framesWritten + es.count FrameEvent.ok ∧
      s'.convFailures = s.convFailures + es.count FrameEvent.convFail := by
  induction es with
  | nil =>
    intro s _
    exact ⟨s, by simp [runLoop, ite_self], by simp, by simp, by simp⟩
  | cons e rest ih =>
    intro s h
    have hrest : ∀ x ∈ rest, x = FrameEvent.ok ∨ x = FrameEvent.convFail :=
      fun x hx => h x (List.mem_cons_of_mem e hx)
    rcases h e (List.mem_cons_self e rest) with rfl | rfl
    · obtain ⟨s', hs', hd, hw, hc⟩ := ih _ hrest
      refine ⟨s', by simpa [runLoop] using hs', ?_, ?_, ?_⟩ <;>
        simp [hd, hw, hc, List.count_cons] <;> omega
    · obtain ⟨s', hs', hd, hw, hc⟩ := ih _ hrest
      refine ⟨s', by simpa [runLoop] using hs', ?_, ?_, ?_⟩ <;>
        simp [hd, hw, hc, List.count_cons] <;> omega

theorem count_ok_add_convFail (es : List FrameEvent)
    (h : ∀ e ∈ es, e = FrameEvent.ok ∨ e = FrameEvent.convFail) :
    es.count FrameEvent.ok + es.count FrameEvent.convFail = es.length := by
  induction es with
  | nil => simp
  | cons e rest ih =>
    have hrest : ∀ x ∈ rest, x = FrameEvent.ok ∨ x = FrameEvent.convFail :=
      fun x hx => h x (List.mem_cons_of_mem e hx)
    have hih := ih hrest
    rcases h e (List.mem_cons_self e rest) with rfl | rfl <;>
      simp [List.count_cons] <;> omega

theorem exceptHandler_fields (s : St) :
    (exceptHandler s).outputPath = s.outputPath ∧
    (exceptHandler s).trace = s.trace ∧
    (exceptHandler s).dirCreated = s.dirCreated ∧
    (exceptHandler s).usedFps = s.usedFps ∧
    (exceptHandler s).framesDecoded = s.framesDecoded ∧
    (exceptHandler s).framesWritten = s.framesWritten ∧
    (exceptHandler s).convFailures = s.convFailures ∧
    (exceptHandler s).capConstructed = s.capConstructed ∧
    (exceptHandler s).outConstructed = s.outConstructed ∧
    Warn.unexpected ∈ (exceptHandler s).warnings := by
  simp only [exceptHandler]
  split <;> split <;> simp

theorem exceptHandler_closes (s : St)
    (hc : s.capOpen = true → s.capConstructed = true)
    (ho : s.outOpen = true → s.outConstructed = true) :
    (exceptHandler s).capOpen = false ∧ (exceptHandler s).outOpen = false := by
  simp only [exceptHandler]
  cases hco : s.capOpen <;> cases hoo : s.outOpen <;>
    simp_all

theorem afterWriter_fields (fc : Int) (es : List FrameEvent) (s : St) :
    (afterWriter fc es s).usedFps = s.usedFps ∧
    (afterWriter fc es s).outputPath = s.outputPath ∧
    (afterWriter fc es s).trace = s.trace ∧
    (afterWriter fc es s).dirCreated = s.dirCreated := by
  have h := runLoop_untouched fc es s
  unfold afterWriter
  cases hr : runLoop fc es s with
  | ok s' =>
    rw [hr] at h
    simp only [stateOf] at h
    simp [h.2.2.2.2.1, h.2.2.2.2.2.1, h.2.2.2.2.2.2.1, h.2.2.2.2.2.2.2]
  | error p =>
    obtain ⟨e, s'⟩ := p
    rw [hr] at h
    simp only [stateOf] at h
    have hf := exceptHandler_fields s'
    exact ⟨hf.2.2.2.1.trans h.2.2.2.2.1, hf.1.trans h.2.2.2.2.2.1,
      hf.2.1.trans h.2.2.2.2.2.2.1, hf.2.2.1.trans h.2.2.2.2.2.2.2⟩

theorem afterWriter_closed (fc : Int) (es : List FrameEvent) (s : St)
    (hcc : s.capConstructed = true) (hoc : s.outConstructed = true) :
    (afterWriter fc es s).capOpen = false ∧ (afterWriter fc es s).outOpen = false := by
  have h := runLoop_untouched fc es s
  unfold afterWriter
  cases hr : runLoop fc es s with
  | ok s' => simp
  | error p =>
    obtain ⟨e, s'⟩ := p
    rw [hr] at h
    simp only [stateOf] at h
    exact exceptHandler_closes s' (fun _ => h.1.trans hcc) (fun _ => h.2.2.1.trans hoc)

theorem afterWriter_clean (fc : Int) (es : List FrameEvent) (s : St)
    (hev : ∀ e ∈ es, e = FrameEvent.ok ∨ e = FrameEvent.convFail) :
    (afterWriter fc es s).outputPath = s.outputPath ∧
    (afterWriter fc es s).framesDecoded = s.framesDecoded + es.length ∧
    (afterWriter fc es s).framesWritten = s.framesWritten + es.count FrameEvent.ok ∧
    (afterWriter fc es s).convFailures = s.convFailures + es.count FrameEvent.convFail := by
  obtain ⟨s', hs', hd, hw, hc⟩ := runLoop_clean fc es s hev
  have h := runLoop_untouched fc es s
  rw [hs'] at h
  simp only [stateOf] at h
  unfold afterWriter
  rw [hs']
  simp [hd, hw, hc, h.2.2.2.2.2.1]

/-- A fully successful environment, used by the concrete witnesses: the
source opens, the writer opens, three frames are read of which the second
fails colour conversion. -/
def envOkay : Env :=
  { mkdirRaises := false
    capOpens := true
    frameCount := 10
    fps := 25
    width := 640
    height := 480
    outOpens := true
    events := [FrameEvent.ok, FrameEvent.convFail, FrameEvent.ok] }

/-- C2: for every input path, output directory and environment (including
environments in which `mkdir`, `cap.read`, `cvtColor` or `out.write`
raises), `process_video` returns normally — it is a total function into
`St` — and in the final state neither the decoder handle nor the encoder
handle is still open: every failure is contained and followed by
best-effort release of whichever handles were acquired and still open. -/
theorem processVideo_never_leaks (vp od : String) (env : Env) :
    (process_video vp od env).capOpen = false ∧
    (process_video vp od env).outOpen = false := by
  unfold process_video
  by_cases hm : env.mkdirRaises = true
  · rw [if_pos hm]
    exact exceptHandler_closes _ (by simp [initSt]) (by simp [initSt])
  · rw [if_neg hm]
    by_cases hc : env.capOpens = true
    · simp only [hc, Bool.not_true]
      rw [if_neg (by simp)]
      by_cases hf : env.fps ≤ 0
      · rw [if_pos hf]
        by_cases ho : env.outOpens = true
        · simp only [ho, Bool.not_true]
          rw [if_neg (by simp)]
          exact afterWriter_closed _ _ _ rfl rfl
        · simp only [Bool.not_eq_true] at ho
          simp [ho]
      · rw [if_neg hf]
        by_cases ho : env.outOpens = true
        · simp only [ho, Bool.not_true]
          rw [if_neg (by simp)]
          exact afterWriter_closed _ _ _ rfl rfl
        · simp only [Bool.not_eq_true] at ho
          simp [ho]
    · simp only [Bool.not_eq_true] at hc
      simp [hc, initSt]

/-- C3: when the source opens but the destination encoder does not, the
run releases the decoder, keeps the (never-opened) encoder closed, writes
no frame, and finishes without reaching the unexpected-failure handler. -/
theorem unopenable_dest_releases (vp od : String) (env : Env)
    (hm : env.mkdirRaises = false) (hc : env.capOpens = true)
    (ho : env.outOpens = false) :
    (process_video vp od env).capOpen = false ∧
    (process_video vp od env).outOpen = false ∧
    (process_video vp od env).framesWritten = 0 ∧
    Warn.unexpected ∉ (process_video vp od env).warnings := by
  unfold process_video
  rw [if_neg (by simp [hm])]
  simp only [hc, Bool.not_true]
  rw [if_neg (by simp)]
  by_cases hf : env.fps ≤ 0
  · rw [if_pos hf]
    simp [ho, initSt]
  · rw [if_neg hf]
    simp [ho, initSt]

theorem unopenable_dest_releases_witness :
    (process_video "a.mp4" "out" { envOkay with outOpens := false }).capOpen = false ∧
    (process_video "a.mp4" "out" { envOkay with outOpens := false }).outOpen = false ∧
    (process_video "a.mp4" "out" { envOkay with outOpens := false }).framesWritten = 0 ∧
    Warn.unexpected ∉ (process_video "a.mp4" "out" { envOkay with outOpens := false }).warnings :=
  unopenable_dest_releases "a.mp4" "out" { envOkay with outOpens := false } rfl rfl rfl

/-- C5: whenever the run reads the source's properties (the directory was
created and the source opened), the frame rate handed to the encoder is
the reported rate when that is strictly positive and the fixed fallback 30
when the reported rate is non-positive. -/
theorem fps_fallback (vp od : String) (env : Env)
    (hm : env.mkdirRaises = false) (hc : env.capOpens = true) :
    (process_video vp od env).usedFps =
      some (if env.fps ≤ 0 then 30 else env.fps) := by
  unfold process_video
  rw [if_neg (by simp [hm])]
  simp only [hc, Bool.not_true]
  rw [if_neg (by simp)]
  by_cases hf : env.fps ≤ 0
  · rw [if_pos hf, if_pos hf]
    by_cases ho : env.outOpens = true
    · simp only [ho, Bool.not_true]
      rw [if_neg (by simp)]
      exact (afterWriter_fields _ _ _).1
    · simp only [Bool.not_eq_true] at ho
      simp [ho]
  · rw [if_neg hf, if_neg hf]
    by_cases ho : env.outOpens = true
    · simp only [ho, Bool.not_true]
      rw [if_neg (by simp)]
      exact (afterWriter_fields _ _ _).1
    · simp only [Bool.not_eq_true] at ho
      simp [ho]

theorem fps_fallback_witness :
    (process_video "a.mp4" "out" { envOkay with fps := -1 }).usedFps = some 30 :=
  (fps_fallback "a.mp4" "out" { envOkay with fps := -1 } rfl rfl).trans (by norm_num)

/-- C6: when the source container cannot be opened, the run prints exactly
the unopenable-source warning, never constructs the encoder (so no output
artifact is attempted), writes no frame, and ends with both handles
closed and without reaching the unexpected-failure handler. -/
theorem unopenable_source_skips (vp od : String) (env : Env)
    (hm : env.mkdirRaises = false) (hc : env.capOpens = false) :
    (process_video vp od env).warnings = [Warn.unopenableSource] ∧
    (process_video vp od env).outConstructed = false ∧
    (process_video vp od env).framesWritten = 0 ∧
    (process_video vp od env).capOpen = false ∧
    (process_video vp od env).outOpen = false := by
  unfold process_video
  rw [if_neg (by simp [hm])]
  simp [hc, initSt]

theorem unopenable_source_skips_witness :
    (process_video "a.mp4" "out" { envOkay with capOpens := false }).warnings =
      [Warn.unopenableSource] ∧
    (process_video "a.mp4" "out" { envOkay with capOpens := false }).outConstructed = false ∧
    (process_video "a.mp4" "out" { envOkay with capOpens := false }).framesWritten = 0 ∧
    (process_video "a.mp4" "out" { envOkay with capOpens := false }).capOpen = false ∧
    (process_video "a.mp4" "out" { envOkay with capOpens := false }).outOpen = false :=
  unopenable_source_skips "a.mp4" "out" { envOkay with capOpens := false } rfl rfl

/-- C8: whenever the directory creation does not itself raise, the run's
external trace begins with the mkdir step immediately followed by the
open-source step — the output directory is created before the source is
opened — and the final state records the directory as created, whatever
happens afterwards (in particular when the source cannot be opened). -/
theorem mkdir_before_open (vp od : String) (env : Env)
    (hm : env.mkdirRaises = false) :
    (process_video vp od env).trace.take 2 = [Step.mkdirStep, Step.openCap] ∧
    (process_video vp od env).dirCreated = true := by
  unfold process_video
  rw [if_neg (by simp [hm])]
  by_cases hc : env.capOpens = true
  · simp only [hc, Bool.not_true]
    rw [if_neg (by simp)]
    by_cases hf : env.fps ≤ 0
    · rw [if_pos hf]
      by_cases ho : env.outOpens = true
      · simp only [ho, Bool.not_true]
        rw [if_neg (by simp)]
        have h := afterWriter_fields env.frameCount env.events
        constructor
        · rw [(h _).2.2.1]
          simp [initSt]
        · rw [(h _).2.2.2]
      · simp only [Bool.not_eq_true] at ho
        simp [ho, initSt]
    · rw [if_neg hf]
      by_cases ho : env.outOpens = true
      · simp only [ho, Bool.not_true]
        rw [if_neg (by simp)]
        have h := afterWriter_fields env.frameCount env.events
        constructor
        · rw [(h _).2.2.1]
          simp [initSt]
        · rw [(h _).2.2.2]
      · simp only [Bool.not_eq_true] at ho
        simp [ho, initSt]
  · simp only [Bool.not_eq_true] at hc
    simp [hc, initSt]

theorem mkdir_before_open_witness :
    (process_video "b.avi" "out" { envOkay with capOpens := false }).trace.take 2 =
      [Step.mkdirStep, Step.openCap] ∧
    (process_video "b.avi" "out" { envOkay with capOpens := false }).dirCreated = true :=
  mkdir_before_open "b.avi" "out" { envOkay with capOpens := false } rfl

/-- C4: for a run in which the directory is created, both the decoder and
the encoder open, and every frame-loop iteration either succeeds or fails
only in the colour conversion (the `cv2.error` case, which skips that one
frame and continues), the artifact path is the input's stem with a `.mp4`
extension under the output directory, the number of frames written is at
most the number of frames decoded, and the inequality is strict exactly
when at least one conversion failure occurred. -/
theorem clean_run_frame_accounting (vp od : String) (env : Env)
    (hm : env.mkdirRaises = false) (hc : env.capOpens = true)
    (ho : env.outOpens = true)
    (hev : ∀ e ∈ env.events, e = FrameEvent.ok ∨ e = FrameEvent.convFail) :
    (process_video vp od env).outputPath =
      some (od ++ "/" ++ pyStem vp ++ ".mp4") ∧
    (process_video vp od env).framesWritten ≤ (process_video vp od env).framesDecoded ∧
    ((process_video vp od env).framesWritten < (process_video vp od env).framesDecoded ↔
      0 < (process_video vp od env).convFailures) := by
  have hsplit := count_ok_add_convFail env.events hev
  unfold process_video
  rw [if_neg (by simp [hm])]
  simp only [hc, Bool.not_true]
  rw [if_neg (by simp)]
  by_cases hf : env.fps ≤ 0
  · rw [if_pos hf]
    simp only [ho, Bool.not_true]
    rw [if_neg (by simp)]
    rw [(afterWriter_clean _ _ _ hev).1, (afterWriter_clean _ _ _ hev).2.1,
      (afterWriter_clean _ _ _ hev).2.2.1, (afterWriter_clean _ _ _ hev).2.2.2]
    refine ⟨by simp [initSt], ?_, ?_⟩ <;> simp only [initSt] <;> omega
  · rw [if_neg hf]
    simp only [ho, Bool.not_true]
    rw [if_neg (by simp)]
    rw [(afterWriter_clean _ _ _ hev).1, (afterWriter_clean _ _ _ hev).2.1,
      (afterWriter_clean _ _ _ hev).2.2.1, (afterWriter_clean _ _ _ hev).2.2.2]
    refine ⟨by simp [initSt], ?_, ?_⟩ <;> simp only [initSt] <;> omega

theorem clean_run_frame_accounting_witness :
    (process_video "video.avi" "out" envOkay).outputPath = some "out/video.mp4" ∧
    (process_video "video.avi" "out" envOkay).framesWritten <
      (process_video "video.avi" "out" envOkay).framesDecoded := by
  have h := clean_run_frame_accounting "video.avi" "out" envOkay rfl rfl rfl (by decide)
  exact ⟨h.1.trans (by decide), h.2.2.mpr (by decide)⟩

/-- C9: the frame count reported by the source (`CAP_PROP_FRAME_COUNT`) is
advisory only: two runs of `process_video` whose environments differ only
in the reported frame count produce identical final states, because the
count is only compared against `processed_frames` in a branch whose body
is `pass`. -/
theorem frame_count_advisory (vp od : String) (env : Env) (c1 c2 : Int) :
    process_video vp od { env with frameCount := c1 } =
      process_video vp od { env with frameCount := c2 } := by
  obtain ⟨m, co, fc, f, w, h, oo, ev⟩ := env
  simp only [process_video]
  rw [afterWriter_fc_irrel c1 c2]

/-- C1: whenever discovery finds at least one matching file, one batch run
bumps the tqdm counter exactly once per completion yielded by the pool in
whatever order completions arrive, and its final value is exactly the
number of discovered files, regardless of each file's internal outcome. -/
theorem progress_final_count (entries : List Entry) (output_dir : String)
    (envOf : String → Env) (completionOrder : List Entry)
    (hperm : completionOrder.Perm (discoverVideoFiles entries))
    (hne : discoverVideoFiles entries ≠ []) :
    (runBatch entries output_dir envOf completionOrder).finalCounter =
      some (discoverVideoFiles entries).length := by
  unfold runBatch
  rw [if_neg (by simp [List.isEmpty_iff, hne])]
  simp only [foldl_add_one, List.length_map, Nat.zero_add]
  rw [hperm.length_eq]

theorem progress_final_count_witness :
    (runBatch [Entry.mk "a.mp4" true, Entry.mk "notes.txt" true] "out"
        (fun _ => envOkay) [Entry.mk "a.mp4" true]).finalCounter = some 1 := by
  have h := progress_final_count [Entry.mk "a.mp4" true, Entry.mk "notes.txt" true]
    "out" (fun _ => envOkay) [Entry.mk "a.mp4" true]
    (by decide) (by decide)
  exact h.trans (by decide)

/-- C7: the batch run prints the no-files-found message, skips the pool
and skips creating the output directory precisely when discovery finds
zero matching files; with at least one matching file the pool is started,
the output directory is created, and a final counter is produced. -/
theorem zero_files_guard (entries : List Entry) (output_dir : String)
    (envOf : String → Env) (completionOrder : List Entry) :
    (discoverVideoFiles entries = [] ↔
      (runBatch entries output_dir envOf completionOrder).noFilesMessage = true) ∧
    (discoverVideoFiles entries = [] ↔
      (runBatch entries output_dir envOf completionOrder).poolStarted = false) ∧
    (discoverVideoFiles entries = [] ↔
      (runBatch entries output_dir envOf completionOrder).outputDirCreated = false) ∧
    (discoverVideoFiles entries = [] ↔
      (runBatch entries output_dir envOf completionOrder).finalCounter = none) := by
  by_cases h : discoverVideoFiles entries = [] <;>
    simp [runBatch, List.isEmpty_iff, h]

/-- C10: the output naming is not injective on the allow-listed inputs:
the distinct discovered files `a.mp4` and `a.avi` share the stem `a`, so
`process_video` computes the same output artifact path for both, and the
two workers write to one file. -/
theorem stem_collision :
    isVideoEntry (Entry.mk "a.mp4" true) = true ∧
    isVideoEntry (Entry.mk "a.avi" true) = true ∧
    ("a.mp4" : String) ≠ "a.avi" ∧
    (process_video "a.mp4" "out" envOkay).outputPath =
      (process_video "a.avi" "out" envOkay).outputPath ∧
    (process_video "a.mp4" "out" envOkay).outputPath = some "out/a.mp4" := by
  refine ⟨by decide, by decide, by decide, by decide, by decide⟩

end ProcessVideos
